import Mathlib

/-!
Verification development for the stonehenge-flash supervision agent.

The file shallowly embeds the parts of the Go sources that the design
document's claims are about:

* the supervisor state machine of `agent/agent.go` (`Agent.Stop`,
  `Agent.StopMEVBot`, `Agent.StartMEVBot`, `Agent.RestartMEVBot`,
  `Agent.UpdateConfig` and the health-check loop `Agent.monitorStatus`),
  modelled as a step function on an explicit state, with per-operation
  failure oracles for process start/stop and file persistence and an
  event trace recording flag writes, lifecycle calls, persist calls and
  broadcasts;
* the hot-token enrichment pipeline (`HotTokensTracker.FetchHotTokens`
  and `HotTokensTracker.UpdateConfig`): ranking selection, the ≥2-pool-
  category filter and the per-mint merge step;
* the configuration model (`Config`, `MintConfig`, `Config.Copy`) and the
  copy-then-patch WebSocket mutation handlers;
* the WebSocket handshake token check (`handleConnections`) and the
  `bot`/`status` command's channel send on the capacity-1 trigger channel.

Volumes (Go `float64`) are modelled as `Int`: the code only compares
them, never computes with them, so any linearly ordered carrier is
faithful for non-NaN inputs.  Go's `sort.Slice` documents no stability,
so its contract is captured relationally (`SortSliceOutcome`: any
permutation of the input ordered by the comparison); a deterministic
stable insertion sort on the same comparison serves as the executable
model and is proved to be one of the legal outcomes.
-/

set_option maxHeartbeats 1000000

namespace StonehengeFlash

/- ## Generic string and sorting helpers -/

/-- Does `pat` occur as a prefix of `text` (character lists)? -/
def charsBeginWith : List Char → List Char → Bool
  | [], _ => true
  | _ :: _, [] => false
  | p :: ps, t :: ts => p == t && charsBeginWith ps ts

/-- Does `pat` occur as a contiguous substring of `text`?
Model of Go `strings.Contains`. -/
def charsContain : List Char → List Char → Bool
  | [], pat => pat.isEmpty
  | t :: ts, pat => charsBeginWith pat (t :: ts) || charsContain ts pat

/-- Model of Go `strings.Contains s pat`. -/
def strContains (s pat : String) : Bool := charsContain s.data pat.data

/-- Insert `x` into a list sorted by strictly greater `vol` first, keeping
`x` after every element of strictly larger volume (stable placement). -/
def insertDescBy {α : Type} (vol : α → Int) (x : α) : List α → List α
  | [] => [x]
  | y :: ys => if vol x < vol y then y :: insertDescBy vol x ys else x :: y :: ys

/-- Deterministic stable sort in descending `vol` order: the executable
model of the tracker's
`sort.Slice(v, func(i, j) { return v[i].Volume15m > v[j].Volume15m })`
calls.  `sort.Slice` itself guarantees only an ordered permutation, not
stability; that weaker contract is `SortSliceOutcome` below, and this
function realizes one of its legal outcomes. -/
def sortDescBy {α : Type} (vol : α → Int) : List α → List α
  | [] => []
  | x :: xs => insertDescBy vol x (sortDescBy vol xs)

/-- The contract Go documents for `sort.Slice`: the result is some
permutation of the input ordered by the comparison; stability is
explicitly not guaranteed, so any relative order of equal-`vol` elements
is a legal outcome. -/
def SortSliceOutcome {α : Type} (vol : α → Int) (input output : List α) : Prop :=
  List.Perm output input ∧ List.Pairwise (fun a b => vol b ≤ vol a) output

/- ## Enrichment pipeline data (hot_tokens source) -/

/-- `HotToken` record of the ranking response (fields consumed by the code). -/
structure HotToken where
  pair : String
  chain : String
  amm : String
  targetToken : String
  tokenSymbol : String
  volume15m : Int
  volumeUSD24h : Int
deriving DecidableEq, Repr

/-- Failure cases of `FetchHotTokens` relevant to the ranking step. -/
inductive FetchErr where
  | invalidResponse
deriving DecidableEq, Repr

/-- The ranking-source response envelope (`APIResponse`). -/
structure APIResponse where
  status : Int
  total : Int
  pageNO : Int
  pageSize : Int
  data : List HotToken
deriving DecidableEq, Repr

/-- The selection performed by `HotTokensTracker.FetchHotTokens` on a parsed
ranking response: reject unless `Status == 1` and the list is non-empty;
sort descending by 15-minute volume; keep at most the first 10. -/
def fetchHotTokensSelect (resp : APIResponse) : Except FetchErr (List HotToken) :=
  if resp.status ≠ 1 ∨ resp.data = [] then Except.error FetchErr.invalidResponse
  else Except.ok ((sortDescBy HotToken.volume15m resp.data).take 10)

/-- The same selection under the documented `sort.Slice` contract: reject
unless `Status == 1` and the list is non-empty, otherwise the result is
the first 10 of some legal (ordered, not necessarily stable) sort outcome
of the candidate list. -/
def FetchHotTokensRel (resp : APIResponse) (r : Except FetchErr (List HotToken)) : Prop :=
  if resp.status ≠ 1 ∨ resp.data = [] then r = Except.error FetchErr.invalidResponse
  else ∃ sorted, SortSliceOutcome HotToken.volume15m resp.data sorted ∧
    r = Except.ok (sorted.take 10)

/-- Per-candidate pool accumulator (`TokenPoolsInfo`). -/
structure TokenPoolsInfo where
  tokenAddress : String
  tokenSymbol : String
  volume15m : Int
  pumpPools : List String
  meteoraLists : List String
  raydiumPools : List String
  raydiumCPPools : List String
deriving DecidableEq, Repr

/-- The asset-eligibility substring the filter requires in the token address. -/
def pumpMarker : String := "pump"

/-- Number of the four pool categories that are non-empty for a candidate. -/
def poolTypeCount (info : TokenPoolsInfo) : Nat :=
  (if info.pumpPools ≠ [] then 1 else 0) +
  (if info.meteoraLists ≠ [] then 1 else 0) +
  (if info.raydiumPools ≠ [] then 1 else 0) +
  (if info.raydiumCPPools ≠ [] then 1 else 0)

/-- The per-candidate predicate of `HotTokensTracker.UpdateConfig`: the
address must contain the marker and at least two categories must be
populated. -/
def eligibleToken (info : TokenPoolsInfo) : Bool :=
  strContains info.tokenAddress pumpMarker && decide (2 ≤ poolTypeCount info)

/-- The filter step of `HotTokensTracker.UpdateConfig` exactly as coded:
sort all accumulators by descending volume, keep the eligible ones, cut
to at most two. -/
def selectValidTokens (infos : List TokenPoolsInfo) : List TokenPoolsInfo :=
  ((sortDescBy TokenPoolsInfo.volume15m infos).filter eligibleToken).take 2

/- ## Configuration model (config source) -/

/-- `MintConfig` — per-token route record. -/
structure MintConfig where
  mint : String
  pumpPoolList : List String
  raydiumPoolList : List String
  raydiumCPPoolList : List String
  meteoraPoolList : List String
  lookupTableAccounts : List String
  processDelay : Int
deriving DecidableEq, Repr

structure RoutingSection where
  mintConfigList : List MintConfig
deriving DecidableEq, Repr

structure RPCSection where
  url : String
deriving DecidableEq, Repr

/-- `compute_unit_price` / `tip_config` sub-table (Go fields Strategy, From,
To, Count; `From`/`To` are renamed `fromLamports`/`toLamports` here). -/
structure RangeStrategySection where
  strategy : String
  fromLamports : Int
  toLamports : Int
  count : Int
deriving DecidableEq, Repr

structure SpamSection where
  enabled : Bool
  sendingRPCURLs : List String
  computeUnitPrice : RangeStrategySection
  maxRetries : Int
  enableSimpleSend : Bool
deriving DecidableEq, Repr

structure JitoSection where
  enabled : Bool
  blockEngineURLs : List String
  uuid : String
  ipAddresses : List String
  tipConfig : RangeStrategySection
deriving DecidableEq, Repr

structure KaminoFlashloanSection where
  enabled : Bool
deriving DecidableEq, Repr

structure BotSection where
  computeUnitLimit : Int
  mergeMints : Bool
deriving DecidableEq, Repr

/-- The worker routing configuration `Config` (the empty `Wallet` table
carries no data and is omitted). -/
structure Config where
  routing : RoutingSection
  rpc : RPCSection
  spam : SpamSection
  jito : JitoSection
  kaminoFlashloan : KaminoFlashloanSection
  bot : BotSection
deriving DecidableEq, Repr

/- ### Deep copy (`Config.Copy`, a json marshal/unmarshal round trip).
The round trip rebuilds the whole value tree sharing nothing with the
original; it is embedded as a structural rebuild down to the characters. -/

def copyCharList : List Char → List Char
  | [] => []
  | c :: cs => c :: copyCharList cs

def copyString (s : String) : String := String.mk (copyCharList s.data)

def copyStringList : List String → List String
  | [] => []
  | s :: rest => copyString s :: copyStringList rest

def MintConfig.copy (m : MintConfig) : MintConfig :=
  ⟨copyString m.mint, copyStringList m.pumpPoolList, copyStringList m.raydiumPoolList,
   copyStringList m.raydiumCPPoolList, copyStringList m.meteoraPoolList,
   copyStringList m.lookupTableAccounts, m.processDelay⟩

def copyMintConfigList : List MintConfig → List MintConfig
  | [] => []
  | m :: rest => m.copy :: copyMintConfigList rest

def copyRangeStrategy (r : RangeStrategySection) : RangeStrategySection :=
  ⟨copyString r.strategy, r.fromLamports, r.toLamports, r.count⟩

/-- Deep copy of the whole configuration (`Config.Copy`). -/
def Config.copy (c : Config) : Config :=
  ⟨⟨copyMintConfigList c.routing.mintConfigList⟩,
   ⟨copyString c.rpc.url⟩,
   ⟨c.spam.enabled, copyStringList c.spam.sendingRPCURLs,
    copyRangeStrategy c.spam.computeUnitPrice, c.spam.maxRetries, c.spam.enableSimpleSend⟩,
   ⟨c.jito.enabled, copyStringList c.jito.blockEngineURLs, copyString c.jito.uuid,
    copyStringList c.jito.ipAddresses, copyRangeStrategy c.jito.tipConfig⟩,
   ⟨c.kaminoFlashloan.enabled⟩,
   ⟨c.bot.computeUnitLimit, c.bot.mergeMints⟩⟩

/- ### Merge step of `HotTokensTracker.UpdateConfig` -/

/-- First `MintConfig` in the list whose mint equals `addr` (the lookup
loop over `newMevConfig.Routing.MintConfigList`). -/
def findExistingMintConfig (l : List MintConfig) (addr : String) : Option MintConfig :=
  l.find? (fun m => m.mint == addr)

/-- Fresh route created when no existing entry matches: empty lookup-table
list and processing delay 1000 (other fields zero-valued). -/
def freshMintConfig (addr : String) : MintConfig :=
  ⟨addr, [], [], [], [], [], 1000⟩

/-- Merge of one surviving candidate into the route list: reuse the
existing route if present, otherwise start fresh, then overwrite only the
categories for which the current cycle found at least one pool. -/
def mergeMintRoute (existing : List MintConfig) (info : TokenPoolsInfo) : MintConfig :=
  let base :=
    match findExistingMintConfig existing info.tokenAddress with
    | some c => c
    | none => freshMintConfig info.tokenAddress
  { base with
    pumpPoolList := if info.pumpPools ≠ [] then info.pumpPools else base.pumpPoolList,
    meteoraPoolList := if info.meteoraLists ≠ [] then info.meteoraLists else base.meteoraPoolList,
    raydiumPoolList := if info.raydiumPools ≠ [] then info.raydiumPools else base.raydiumPoolList,
    raydiumCPPoolList :=
      if info.raydiumCPPools ≠ [] then info.raydiumCPPools else base.raydiumCPPoolList }

/-- The new mint list adopted by the cycle: exactly the survivors, merged. -/
def mergeMintConfigList (existing : List MintConfig) (survivors : List TokenPoolsInfo) :
    List MintConfig :=
  survivors.map (mergeMintRoute existing)

/- ## WebSocket mutation handlers (copy-then-patch) -/

def addMintPatch (c : Config) (m : MintConfig) : Config :=
  { c with routing := ⟨c.routing.mintConfigList ++ [m]⟩ }

def removeMintPatch (c : Config) (addr : String) : Config :=
  { c with routing := ⟨c.routing.mintConfigList.filter (fun m => !(m.mint == addr))⟩ }

def updateRPCPatch (c : Config) (u : String) : Config :=
  { c with rpc := ⟨u⟩ }

def toggleFeaturePatch (c : Config) (feature : String) (enabled : Bool) : Config :=
  if feature == "spam" then { c with spam := { c.spam with enabled := enabled } }
  else if feature == "jito" then { c with jito := { c.jito with enabled := enabled } }
  else if feature == "kamino_flashloan" then { c with kaminoFlashloan := ⟨enabled⟩ }
  else if feature == "merge_mints" then { c with bot := { c.bot with mergeMints := enabled } }
  else c

/-- Each handler returns the live configuration it leaves behind together
with the argument it passes to `UpdateConfig` (built from a deep copy). -/
def handleAddMint (live : Config) (m : MintConfig) : Config × Config :=
  (live, addMintPatch live.copy m)

def handleRemoveMint (live : Config) (addr : String) : Config × Config :=
  (live, removeMintPatch live.copy addr)

def handleUpdateRPC (live : Config) (u : String) : Config × Config :=
  (live, updateRPCPatch live.copy u)

def handleToggleFeature (live : Config) (feature : String) (enabled : Bool) : Config × Config :=
  (live, toggleFeaturePatch live.copy feature enabled)

/-- `handleSectionUpdate` patches a deep copy through `UpdateSection`
(whose TOML round trip is abstracted as an arbitrary patch function). -/
def handleSectionUpdate (live : Config) (patch : Config → Config) : Config × Config :=
  (live, patch live.copy)

/- ## Status-check trigger channel (bot/status command) -/

/-- Outcome of a Go channel send under plain (blocking) send semantics. -/
inductive StatusSend where
  | delivered (pending : Nat)
  | blocked
deriving DecidableEq, Repr

/-- `statusChecks` is created with `make(chan struct, 1)`. -/
def statusChecksCapacity : Nat := 1

/-- Plain Go send on a buffered channel: delivered while the buffer has
room, otherwise the sender blocks. -/
def chanSendBlocking (cap pending : Nat) : StatusSend :=
  if pending < cap then StatusSend.delivered (pending + 1) else StatusSend.blocked

/-- The `bot`/`status` handler's enqueue `ws.agent.statusChecks <- struct` -/
def statusCommandEnqueue (pending : Nat) : StatusSend :=
  chanSendBlocking statusChecksCapacity pending

/-- Outcome claimed by the spec for the enqueue. -/
inductive StatusSendClaim where
  | delivered (pending : Nat)
  | dropped
deriving DecidableEq, Repr

/-- Modelled from the spec: the claimed non-blocking enqueue (a
select-with-default send that drops the excess request). -/
def statusCommandEnqueueClaimed (pending : Nat) : StatusSendClaim :=
  if pending < statusChecksCapacity then StatusSendClaim.delivered (pending + 1)
  else StatusSendClaim.dropped

/- ## WebSocket handshake (handleConnections) -/

structure HandshakeResult where
  unauthorizedSent : Bool
  upgradeAttempted : Bool
  registered : Bool
  welcomeSent : Bool
deriving DecidableEq, Repr

/-- Token check and registration path of `handleConnections`: a configured
token that does not match the query parameter is rejected before the
upgrade; otherwise the transport is upgraded (`upgradeOk` abstracts
upgrade success), the client registered and the welcome message sent. -/
def handleConnections (verifyToken token : String) (upgradeOk : Bool) : HandshakeResult :=
  if verifyToken ≠ "" ∧ token ≠ verifyToken then ⟨true, false, false, false⟩
  else if upgradeOk then ⟨false, true, true, true⟩
  else ⟨false, true, false, false⟩

/- ## Supervisor state machine (agent.go) -/

/-- Failure oracle for one supervisor operation: whether an attempted
process start succeeds, whether the stop signal (or the escalation kill)
succeeds, whether persisting the configuration file succeeds, and whether
the asynchronous exit observer fires between a stop call and the following
start call (process liveness is flipped by that observer, never by `Stop`
itself). -/
structure Oracle where
  startOk : Bool
  stopOk : Bool
  saveOk : Bool
  exitBetween : Bool
deriving DecidableEq, Repr

/-- Broadcast notifications sent by the supervisor operations. -/
inductive BMsg where
  | manualStopDone
  | manualStartDone
  | restartDone
  | configUpdated
  | autoRestarted
  | autoRestartFailed
  | statusReport
deriving DecidableEq, Repr

/-- Observable events of one supervisor operation, in program order:
writes to `manuallyStopped`, calls to `proc.Stop` / `proc.Start`, the
`SaveToFile` persist call, and websocket broadcasts. -/
inductive AgentEvent where
  | setFlag (b : Bool)
  | stopCall
  | startCall
  | saveCall
  | broadcast (m : BMsg)
deriving DecidableEq, Repr

/-- Supervisor-owned state: the agent-level running flag, the
`manuallyStopped` flag, the worker-process liveness, and the in-memory and
on-disk configurations. -/
structure AgentState where
  isRunning : Bool
  manuallyStopped : Bool
  procRunning : Bool
  memConfig : Config
  diskConfig : Config
deriving DecidableEq, Repr

/-- The supervisor operations plus the two environment events the claims
quantify over: a health-check timer tick, an on-demand status check, and
the exit observer firing. -/
inductive AgentOp where
  | stopAgent (o : Oracle)
  | stopWorker (o : Oracle)
  | startWorker (o : Oracle)
  | restartWorker (o : Oracle)
  | reconfigure (o : Oracle) (cfg : Config)
  | tick (o : Oracle)
  | statusCheck
  | procExit
deriving DecidableEq, Repr

structure StepResult where
  state : AgentState
  events : List AgentEvent
  ok : Bool
deriving DecidableEq, Repr

/-- One supervisor operation, faithful to agent.go.  Each branch follows
the Go statement order; `events` lists what happened in that order.
`Agent.Stop` and `Agent.UpdateConfig` swallow `proc.Stop` errors (logged
only); `proc.Start` is a no-op success when the process is still recorded
as running; `proc.Stop` never flips liveness itself. -/
def step : AgentOp → AgentState → StepResult
  | AgentOp.stopAgent _, s =>
    if s.isRunning then
      ⟨{ s with manuallyStopped := true, isRunning := false },
       [AgentEvent.setFlag true, AgentEvent.stopCall], true⟩
    else ⟨s, [], true⟩
  | AgentOp.stopWorker o, s =>
    if s.procRunning && !o.stopOk then
      ⟨{ s with manuallyStopped := true },
       [AgentEvent.setFlag true, AgentEvent.stopCall], false⟩
    else
      ⟨{ s with manuallyStopped := true },
       [AgentEvent.setFlag true, AgentEvent.stopCall,
        AgentEvent.broadcast BMsg.manualStopDone], true⟩
  | AgentOp.startWorker o, s =>
    if s.procRunning || o.startOk then
      ⟨{ s with manuallyStopped := false, procRunning := true },
       [AgentEvent.setFlag false, AgentEvent.startCall,
        AgentEvent.broadcast BMsg.manualStartDone], true⟩
    else
      ⟨{ s with manuallyStopped := false },
       [AgentEvent.setFlag false, AgentEvent.startCall], false⟩
  | AgentOp.restartWorker o, s =>
    if s.procRunning && !o.stopOk then ⟨s, [AgentEvent.stopCall], false⟩
    else if (s.procRunning && !o.exitBetween) || o.startOk then
      ⟨{ s with manuallyStopped := false, procRunning := true },
       [AgentEvent.stopCall, AgentEvent.setFlag true, AgentEvent.startCall,
        AgentEvent.setFlag false, AgentEvent.broadcast BMsg.restartDone], true⟩
    else
      ⟨{ s with manuallyStopped := true, procRunning := false },
       [AgentEvent.stopCall, AgentEvent.setFlag true, AgentEvent.startCall], false⟩
  | AgentOp.reconfigure o cfg, s =>
    if !o.saveOk then ⟨s, [AgentEvent.saveCall], false⟩
    else if (s.procRunning && !o.exitBetween) || o.startOk then
      ⟨{ s with memConfig := cfg, diskConfig := cfg, procRunning := true },
       [AgentEvent.saveCall, AgentEvent.stopCall, AgentEvent.startCall,
        AgentEvent.broadcast BMsg.configUpdated], true⟩
    else
      ⟨{ s with memConfig := cfg, diskConfig := cfg, procRunning := false },
       [AgentEvent.saveCall, AgentEvent.stopCall, AgentEvent.startCall], false⟩
  | AgentOp.tick o, s =>
    if !s.procRunning && !s.manuallyStopped then
      if o.startOk then
        ⟨{ s with procRunning := true },
         [AgentEvent.startCall, AgentEvent.broadcast BMsg.autoRestarted], true⟩
      else
        ⟨s, [AgentEvent.startCall, AgentEvent.broadcast BMsg.autoRestartFailed], true⟩
    else ⟨s, [], true⟩
  | AgentOp.statusCheck, s => ⟨s, [AgentEvent.broadcast BMsg.statusReport], true⟩
  | AgentOp.procExit, s => ⟨{ s with procRunning := false }, [], true⟩

/-- Run a sequence of operations. -/
def runOps (s : AgentState) : List AgentOp → AgentState
  | [] => s
  | op :: rest => runOps (step op s).state rest

/-- The two operations that clear the manual-stop flag. -/
def isManualStart : AgentOp → Bool
  | AgentOp.startWorker _ => true
  | AgentOp.restartWorker _ => true
  | _ => false

/- ### Trace-order checkers for the flag-mutation claim -/

/-- Tracks the last value written to the flag within the trace (starting
from `cur`) and demands it is `true` at every `stopCall`. -/
def flagTrueAtEveryStop : Bool → List AgentEvent → Bool
  | _, [] => true
  | _, AgentEvent.setFlag b :: rest => flagTrueAtEveryStop b rest
  | cur, AgentEvent.stopCall :: rest => cur && flagTrueAtEveryStop cur rest
  | cur, _ :: rest => flagTrueAtEveryStop cur rest

/-- Demands that every `startCall` is immediately preceded by
`setFlag false`. -/
def clearedImmediatelyBeforeEveryStart : Option AgentEvent → List AgentEvent → Bool
  | _, [] => true
  | prev, AgentEvent.startCall :: rest =>
      decide (prev = some (AgentEvent.setFlag false)) &&
        clearedImmediatelyBeforeEveryStart (some AgentEvent.startCall) rest
  | _, e :: rest => clearedImmediatelyBeforeEveryStart (some e) rest

/-- Count of a given event in a trace. -/
def countEvent (e : AgentEvent) : List AgentEvent → Nat
  | [] => 0
  | x :: rest => (if x = e then 1 else 0) + countEvent e rest

/-- Is the event a write to the manual-stop flag? -/
def isFlagMutation : AgentEvent → Bool
  | AgentEvent.setFlag _ => true
  | _ => false

/- ## Concrete fixtures (witnesses and counterexamples) -/

def cfg0 : Config :=
  ⟨⟨[]⟩, ⟨""⟩, ⟨false, [], ⟨"", 0, 0, 0⟩, 0, false⟩,
   ⟨false, [], "", [], ⟨"", 0, 0, 0⟩⟩, ⟨false⟩, ⟨0, false⟩⟩

def cfg1 : Config := { cfg0 with rpc := ⟨"https rpc endpoint"⟩ }

def state0 : AgentState := ⟨true, false, true, cfg0, cfg0⟩

def stateStopped : AgentState := ⟨true, false, false, cfg0, cfg0⟩

def oracleAllOk : Oracle := ⟨true, true, true, false⟩

def oracleSaveFail : Oracle := ⟨true, true, false, false⟩

def oracleStartFail : Oracle := ⟨false, true, true, true⟩

def opsW : List AgentOp :=
  [AgentOp.tick oracleAllOk, AgentOp.procExit, AgentOp.tick oracleAllOk,
   AgentOp.reconfigure oracleAllOk cfg1, AgentOp.statusCheck,
   AgentOp.tick oracleAllOk, AgentOp.stopAgent oracleAllOk, AgentOp.tick oracleAllOk]

def mkHotToken (p : String) (v : Int) : HotToken := ⟨p, "solana", p, p, p, v, 0⟩

def respExample : APIResponse :=
  ⟨1, 4, 1, 40,
   [mkHotToken "t50" 50, mkHotToken "t10" 10, mkHotToken "t80" 80, mkHotToken "t30" 30]⟩

/-- Ranking response containing two distinct candidates with tied
15-minute volume. -/
def respTie : APIResponse :=
  ⟨1, 4, 1, 40,
   [mkHotToken "tieA" 50, mkHotToken "tieB" 50, mkHotToken "t80" 80, mkHotToken "t10" 10]⟩

/-- Candidate with 3 pump pools, 0 Meteora, 1 Raydium, 0 Raydium-CP. -/
def infoA : TokenPoolsInfo :=
  ⟨"AbCpumpMint", "AAA", 100, ["p1", "p2", "p3"], [], ["r1"], []⟩

/-- Candidate with only 2 pump pools and nothing else. -/
def infoB : TokenPoolsInfo :=
  ⟨"DeFpumpMint", "BBB", 200, ["q1", "q2"], [], [], []⟩

/-- Pre-existing route for `infoA`'s mint, with lookup tables and a
custom delay and previously known Meteora pools. -/
def mcOld : MintConfig :=
  ⟨"AbCpumpMint", ["old1"], ["oldr"], [], ["oldm"], ["lut1", "lut2"], 250⟩

/-! ## Theorems -/

/- ### Deep-copy faithfulness -/

theorem copyCharList_eq (l : List Char) : copyCharList l = l := by
  induction l with
  | nil => rfl
  | cons c cs ih => simp [copyCharList, ih]

theorem copyString_eq (s : String) : copyString s = s := by
  cases s with
  | mk data => simp [copyString, copyCharList_eq]

theorem copyStringList_eq (l : List String) : copyStringList l = l := by
  induction l with
  | nil => rfl
  | cons s rest ih => simp [copyStringList, copyString_eq, ih]

theorem mintConfig_copy_eq (m : MintConfig) : m.copy = m := by
  cases m
  simp [MintConfig.copy, copyString_eq, copyStringList_eq]

theorem copyMintConfigList_eq (l : List MintConfig) : copyMintConfigList l = l := by
  induction l with
  | nil => rfl
  | cons m rest ih => simp [copyMintConfigList, mintConfig_copy_eq, ih]

theorem copyRangeStrategy_eq (r : RangeStrategySection) : copyRangeStrategy r = r := by
  cases r
  simp [copyRangeStrategy, copyString_eq]

theorem config_copy_eq (c : Config) : c.copy = c := by
  cases c with
  | mk routing rpc spam jito kamino bot =>
    cases routing; cases rpc; cases spam; cases jito; cases kamino; cases bot
    simp [Config.copy, copyMintConfigList_eq, copyString_eq, copyStringList_eq,
      copyRangeStrategy_eq]

/-- C10: every configuration-mutating control-socket handler takes a deep
copy of the live configuration, applies its patch to the copy, and passes
the patched copy to `UpdateConfig`; the handler leaves the live
configuration exactly as it found it, and because the deep copy rebuilds
the entire value (down to each nested pool list), the patched copy equals
the patch applied directly to the live value — the live value is only
ever replaced wholesale by `UpdateConfig`, never edited by a handler. -/
theorem handlers_copy_then_patch (live : Config) (m : MintConfig) (addr u feature : String)
    (enabled : Bool) (patch : Config → Config) :
    handleAddMint live m = (live, addMintPatch live m) ∧
    handleRemoveMint live addr = (live, removeMintPatch live addr) ∧
    handleUpdateRPC live u = (live, updateRPCPatch live u) ∧
    handleToggleFeature live feature enabled = (live, toggleFeaturePatch live feature enabled) ∧
    handleSectionUpdate live patch = (live, patch live) ∧
    Config.copy live = live := by
  simp [handleAddMint, handleRemoveMint, handleUpdateRPC, handleToggleFeature,
    handleSectionUpdate, config_copy_eq live]

/- ### Status trigger channel -/

/-- C3 counterexample: with one check already pending in the capacity-1
trigger channel, the `bot`/`status` handler's plain channel send blocks —
the excess request is not dropped (the claimed drop behaviour, modelled
from the spec, is shown alongside for contrast). -/
theorem status_enqueue_blocks_counterexample :
    statusCommandEnqueue 1 = StatusSend.blocked ∧
    statusCommandEnqueueClaimed 1 = StatusSendClaim.dropped := by
  decide

/-- C3 amended: the enqueue is a plain blocking send on the capacity-1
channel: with no check pending it enqueues the check and the handler sends
its response; with a check already pending the handler blocks on the send
until the monitor drains the channel — the excess request is neither
dropped nor queued beyond the single buffer slot, and the response is
delayed until the send completes. -/
theorem status_enqueue_blocking_amended (pending : Nat) :
    statusCommandEnqueue pending =
      if pending = 0 then StatusSend.delivered 1 else StatusSend.blocked := by
  cases pending with
  | zero => rfl
  | succ n => simp [statusCommandEnqueue, chanSendBlocking, statusChecksCapacity]

/- ### Handshake authentication -/

/-- C9: when a verification token is configured and the query token does
not match it, the handshake replies unauthorized without attempting the
transport upgrade, never registers the client in the broadcast set and
never sends the welcome notification; a matching token (or an empty
configured token) with a successful upgrade registers the client and sends
the welcome message. -/
theorem handleConnections_auth (verifyToken token : String) (upgradeOk : Bool) :
    (verifyToken ≠ "" → token ≠ verifyToken →
      handleConnections verifyToken token upgradeOk = ⟨true, false, false, false⟩) ∧
    ((token = verifyToken ∨ verifyToken = "") →
      handleConnections verifyToken token true = ⟨false, true, true, true⟩) := by
  constructor
  · intro h1 h2
    simp [handleConnections, h1, h2]
  · intro h
    rcases h with h | h <;> simp [handleConnections, h]

theorem handleConnections_auth_witness :
    (("secret" : String) ≠ "" ∧ ("bad" : String) ≠ "secret" ∧
      handleConnections "secret" "bad" true = ⟨true, false, false, false⟩) ∧
    handleConnections "secret" "secret" true = ⟨false, true, true, true⟩ := by
  refine ⟨⟨by decide, by decide, ?_⟩, ?_⟩
  · exact (handleConnections_auth "secret" "bad" true).1 (by decide) (by decide)
  · exact (handleConnections_auth "secret" "secret" true).2 (Or.inl rfl)

/- ### Stable descending insertion sort -/

theorem mem_insertDescBy {α : Type} (vol : α → Int) (x a : α) (l : List α) :
    a ∈ insertDescBy vol x l ↔ a = x ∨ a ∈ l := by
  induction l with
  | nil => simp [insertDescBy]
  | cons y ys ih =>
    by_cases h : vol x < vol y
    · simp only [insertDescBy, if_pos h, List.mem_cons, ih]
      tauto
    · simp [insertDescBy, h]

theorem insertDescBy_perm {α : Type} (vol : α → Int) (x : α) (l : List α) :
    List.Perm (insertDescBy vol x l) (x :: l) := by
  induction l with
  | nil => simp [insertDescBy]
  | cons y ys ih =>
    by_cases h : vol x < vol y
    · simp only [insertDescBy, if_pos h]
      exact (ih.cons y).trans (List.Perm.swap x y ys)
    · simp [insertDescBy, h]

theorem sortDescBy_perm {α : Type} (vol : α → Int) (l : List α) :
    List.Perm (sortDescBy vol l) l := by
  induction l with
  | nil => simp [sortDescBy]
  | cons x xs ih =>
    exact (insertDescBy_perm vol x (sortDescBy vol xs)).trans (ih.cons x)

theorem pairwise_insertDescBy {α : Type} (vol : α → Int) (x : α) (l : List α)
    (hl : List.Pairwise (fun a b => vol b ≤ vol a) l) :
    List.Pairwise (fun a b => vol b ≤ vol a) (insertDescBy vol x l) := by
  induction l with
  | nil => simp [insertDescBy]
  | cons y ys ih =>
    rcases List.pairwise_cons.mp hl with ⟨hy, hys⟩
    by_cases h : vol x < vol y
    · simp only [insertDescBy, if_pos h]
      refine List.pairwise_cons.mpr ⟨?_, ih hys⟩
      intro a ha
      rcases (mem_insertDescBy vol x a ys).mp ha with rfl | ha
      · exact le_of_lt h
      · exact hy a ha
    · simp only [insertDescBy, if_neg h]
      refine List.pairwise_cons.mpr ⟨?_, hl⟩
      intro a ha
      rcases List.mem_cons.mp ha with rfl | ha
      · exact not_lt.mp h
      · exact le_trans (hy a ha) (not_lt.mp h)

theorem sortDescBy_pairwise {α : Type} (vol : α → Int) (l : List α) :
    List.Pairwise (fun a b => vol b ≤ vol a) (sortDescBy vol l) := by
  induction l with
  | nil => simp [sortDescBy]
  | cons x xs ih => exact pairwise_insertDescBy vol x _ ih

theorem insertDescBy_eq_cons {α : Type} (vol : α → Int) (x : α) (l : List α)
    (h : ∀ z ∈ l, ¬ vol x < vol z) : insertDescBy vol x l = x :: l := by
  cases l with
  | nil => rfl
  | cons y ys =>
    have hy := h y (List.mem_cons_self y ys)
    simp [insertDescBy, hy]

theorem filter_insertDescBy {α : Type} (vol : α → Int) (p : α → Bool) (x : α) (l : List α)
    (hl : List.Pairwise (fun a b => vol b ≤ vol a) l) :
    (insertDescBy vol x l).filter p =
      if p x then insertDescBy vol x (l.filter p) else l.filter p := by
  induction l with
  | nil => cases hp : p x <;> simp [insertDescBy, hp]
  | cons y ys ih =>
    rcases List.pairwise_cons.mp hl with ⟨hy, hys⟩
    by_cases h : vol x < vol y
    · simp only [insertDescBy, if_pos h]
      cases hp : p x
      · cases hpy : p y <;>
          simp [List.filter_cons, hpy, hp, ih hys]
      · cases hpy : p y
        · simp [List.filter_cons, hpy, hp, ih hys]
        · simp [List.filter_cons, hpy, hp, ih hys, insertDescBy, h]
    · simp only [insertDescBy, if_neg h]
      cases hp : p x
      · simp [List.filter_cons, hp]
      · have hall : ∀ z ∈ (y :: ys).filter p, ¬ vol x < vol z := by
          intro z hz
          have hzmem : z ∈ y :: ys := List.mem_of_mem_filter hz
          rcases List.mem_cons.mp hzmem with rfl | hzys
          · exact h
          · exact fun hc => h (lt_of_lt_of_le hc (hy z hzys))
        rw [if_pos rfl, insertDescBy_eq_cons vol x _ hall]
        simp [List.filter_cons, hp]

theorem filter_sortDescBy {α : Type} (vol : α → Int) (p : α → Bool) (l : List α) :
    (sortDescBy vol l).filter p = sortDescBy vol (l.filter p) := by
  induction l with
  | nil => rfl
  | cons x xs ih =>
    have hs := sortDescBy_pairwise vol xs
    rw [sortDescBy, filter_insertDescBy vol p x _ hs, ih]
    cases hp : p x <;> simp [List.filter_cons, hp, sortDescBy]

/-- An ordered permutation of a list on which `vol` is injective is
unique: two sort outcomes of the same input with no volume ties coincide. -/
theorem sortedDesc_perm_unique {α : Type} (vol : α → Int) (l₁ : List α) : ∀ l₂ : List α,
    (∀ a ∈ l₁, ∀ b ∈ l₁, vol a = vol b → a = b) →
    List.Perm l₁ l₂ →
    List.Pairwise (fun a b => vol b ≤ vol a) l₁ →
    List.Pairwise (fun a b => vol b ≤ vol a) l₂ → l₁ = l₂ := by
  induction l₁ with
  | nil =>
    intro l₂ _ hp _ _
    exact hp.symm.eq_nil.symm
  | cons x xs ih =>
    intro l₂ hinj hp h₁ h₂
    cases l₂ with
    | nil => exact absurd hp.eq_nil (by simp)
    | cons y ys =>
      have hxy : x = y := by
        by_cases hne : x = y
        · exact hne
        · have hy_mem : y ∈ x :: xs := hp.mem_iff.mpr (List.mem_cons_self y ys)
          have hx_mem : x ∈ y :: ys := hp.mem_iff.mp (List.mem_cons_self x xs)
          have hy_xs : y ∈ xs := by
            rcases List.mem_cons.mp hy_mem with h | h
            · exact absurd h.symm hne
            · exact h
          have hx_ys : x ∈ ys := by
            rcases List.mem_cons.mp hx_mem with h | h
            · exact absurd h hne
            · exact h
          have hv1 : vol y ≤ vol x := (List.pairwise_cons.mp h₁).1 y hy_xs
          have hv2 : vol x ≤ vol y := (List.pairwise_cons.mp h₂).1 x hx_ys
          exact hinj x (List.mem_cons_self x xs) y hy_mem (le_antisymm hv2 hv1)
      subst hxy
      have hp' : List.Perm xs ys := hp.cons_inv
      rw [ih ys
        (fun a ha b hb => hinj a (List.mem_cons_of_mem x ha) b (List.mem_cons_of_mem x hb))
        hp' (List.pairwise_cons.mp h₁).2 (List.pairwise_cons.mp h₂).2]

/- ### C7: ranking selection -/

/-- C7 counterexample: on a response with two equal-volume candidates,
both relative orders of the tie are legal outcomes of the code's sort
(`sort.Slice` guarantees only an ordered permutation, not stability), and
the two legal results differ — so for volume ties the kept order is not
deterministic, and in particular not pinned to a stable sort's order
(which is just the one outcome the executable model picks). -/
theorem fetchHotTokens_tie_counterexample :
    FetchHotTokensRel respTie
      (Except.ok [mkHotToken "t80" 80, mkHotToken "tieA" 50, mkHotToken "tieB" 50,
        mkHotToken "t10" 10]) ∧
    FetchHotTokensRel respTie
      (Except.ok [mkHotToken "t80" 80, mkHotToken "tieB" 50, mkHotToken "tieA" 50,
        mkHotToken "t10" 10]) ∧
    ([mkHotToken "t80" 80, mkHotToken "tieA" 50, mkHotToken "tieB" 50,
        mkHotToken "t10" 10] : List HotToken) ≠
      [mkHotToken "t80" 80, mkHotToken "tieB" 50, mkHotToken "tieA" 50,
        mkHotToken "t10" 10] ∧
    fetchHotTokensSelect respTie =
      Except.ok [mkHotToken "t80" 80, mkHotToken "tieA" 50, mkHotToken "tieB" 50,
        mkHotToken "t10" 10] := by
  refine ⟨?_, ?_, by decide, by rfl⟩
  · simp only [FetchHotTokensRel]
    rw [if_neg (by decide)]
    exact ⟨[mkHotToken "t80" 80, mkHotToken "tieA" 50, mkHotToken "tieB" 50,
      mkHotToken "t10" 10], ⟨by decide, by decide⟩, rfl⟩
  · simp only [FetchHotTokensRel]
    rw [if_neg (by decide)]
    exact ⟨[mkHotToken "t80" 80, mkHotToken "tieB" 50, mkHotToken "tieA" 50,
      mkHotToken "t10" 10], ⟨by decide, by decide⟩, rfl⟩

/-- C7 amended: the ranking selection fails exactly when the response does
not have success status (1) or has an empty candidate list; on success the
result is the first 10 (all of them when fewer) of some permutation of the
candidates ordered by descending 15-minute volume — the executable
stable-sort model realizes one such outcome — and every legal outcome is
volume-descending, has length `min 10 n` and is a sub-permutation of the
data; because the code's sort is not stable, the order of equal-volume
candidates is not determined, but on a response whose volumes are pairwise
distinct (such as the [50,10,80,30] example) all legal outcomes coincide. -/
theorem fetchHotTokens_rel_spec (resp : APIResponse) (r : Except FetchErr (List HotToken)) :
    ((resp.status ≠ 1 ∨ resp.data = []) →
      (FetchHotTokensRel resp r ↔ r = Except.error FetchErr.invalidResponse)) ∧
    (resp.status = 1 → resp.data ≠ [] →
      FetchHotTokensRel resp (fetchHotTokensSelect resp) ∧
      (FetchHotTokensRel resp r →
        ∃ l, r = Except.ok l ∧
          List.Pairwise (fun a b => b.volume15m ≤ a.volume15m) l ∧
          l.length = min 10 resp.data.length ∧
          l.Subperm resp.data) ∧
      ((∀ a ∈ resp.data, ∀ b ∈ resp.data, a.volume15m = b.volume15m → a = b) →
        ∀ r2, FetchHotTokensRel resp r → FetchHotTokensRel resp r2 → r = r2)) := by
  constructor
  · intro h
    simp only [FetchHotTokensRel]
    rw [if_pos h]
  · intro h1 h2
    have hcond : ¬ (resp.status ≠ 1 ∨ resp.data = []) := by
      rintro (hne | hnil)
      · exact hne h1
      · exact h2 hnil
    refine ⟨?_, ?_, ?_⟩
    · simp only [FetchHotTokensRel]
      rw [if_neg hcond]
      exact ⟨sortDescBy HotToken.volume15m resp.data,
        ⟨sortDescBy_perm _ _, sortDescBy_pairwise _ _⟩,
        by simp only [fetchHotTokensSelect]; rw [if_neg hcond]⟩
    · intro hr
      simp only [FetchHotTokensRel] at hr
      rw [if_neg hcond] at hr
      rcases hr with ⟨sorted, ⟨hperm, hsort⟩, rfl⟩
      refine ⟨sorted.take 10, rfl, ?_, ?_, ?_⟩
      · exact hsort.sublist (List.take_sublist _ _)
      · rw [List.length_take, hperm.length_eq]
      · exact ((List.take_sublist _ _).subperm).trans hperm.subperm
    · intro hinj r2 hr hr2
      simp only [FetchHotTokensRel] at hr hr2
      rw [if_neg hcond] at hr hr2
      rcases hr with ⟨s1, ⟨hp1, hs1⟩, rfl⟩
      rcases hr2 with ⟨s2, ⟨hp2, hs2⟩, rfl⟩
      have hinj1 : ∀ a ∈ s1, ∀ b ∈ s1,
          HotToken.volume15m a = HotToken.volume15m b → a = b :=
        fun a ha b hb => hinj a (hp1.subset ha) b (hp1.subset hb)
      rw [sortedDesc_perm_unique HotToken.volume15m s1 s2 hinj1
        (hp1.trans hp2.symm) hs1 hs2]

theorem fetchHotTokens_rel_witness :
    (respExample.status = 1 ∧ respExample.data ≠ [] ∧
      (∀ a ∈ respExample.data, ∀ b ∈ respExample.data,
        a.volume15m = b.volume15m → a = b)) ∧
    FetchHotTokensRel respExample (fetchHotTokensSelect respExample) ∧
    (∀ r2, FetchHotTokensRel respExample r2 → fetchHotTokensSelect respExample = r2) ∧
    fetchHotTokensSelect respExample =
      Except.ok [mkHotToken "t80" 80, mkHotToken "t50" 50, mkHotToken "t30" 30,
        mkHotToken "t10" 10] := by
  have h := (fetchHotTokens_rel_spec respExample (fetchHotTokensSelect respExample)).2 rfl
    (by decide)
  refine ⟨⟨rfl, by decide, by decide⟩, h.1, ?_, by rfl⟩
  exact fun r2 hr2 => h.2.2 (by decide) r2 h.1 hr2

/- ### C5: eligibility filter -/

/-- C5: the enrichment filter keeps exactly the candidates whose token
address contains the eligibility marker and whose four pool-category lists
are non-empty in at least two categories, ordered by descending 15-minute
volume, keeping at most the first two: the coded sort-then-filter-then-cut
equals filter-then-sort-then-cut, every survivor is an eligible member of
the input, at most two survive, and the survivors are volume-descending. -/
theorem selectValidTokens_spec (infos : List TokenPoolsInfo) :
    selectValidTokens infos =
      (sortDescBy TokenPoolsInfo.volume15m (infos.filter eligibleToken)).take 2 ∧
    (∀ t ∈ selectValidTokens infos,
      strContains t.tokenAddress pumpMarker = true ∧ 2 ≤ poolTypeCount t ∧ t ∈ infos) ∧
    (selectValidTokens infos).length ≤ 2 ∧
    List.Pairwise (fun a b => b.volume15m ≤ a.volume15m) (selectValidTokens infos) := by
  refine ⟨?_, ?_, ?_, ?_⟩
  · unfold selectValidTokens
    rw [filter_sortDescBy]
  · intro t ht
    have h1 : t ∈ (sortDescBy TokenPoolsInfo.volume15m infos).filter eligibleToken :=
      List.take_subset _ _ ht
    have h2 := List.mem_filter.mp h1
    have h3 : t ∈ infos := (sortDescBy_perm _ _).mem_iff.mp h2.1
    have h4 := h2.2
    rw [eligibleToken, Bool.and_eq_true] at h4
    exact ⟨h4.1, of_decide_eq_true h4.2, h3⟩
  · exact List.length_take_le _ _
  · exact ((sortDescBy_pairwise TokenPoolsInfo.volume15m infos).filter
      eligibleToken).sublist (List.take_sublist _ _)

theorem selectValidTokens_witness :
    (infoA ∈ selectValidTokens [infoA, infoB]) ∧
    (strContains infoA.tokenAddress pumpMarker = true ∧ 2 ≤ poolTypeCount infoA ∧
      infoA ∈ [infoA, infoB]) ∧
    poolTypeCount infoB = 1 ∧
    selectValidTokens [infoA, infoB] = [infoA] := by
  refine ⟨by decide, ?_, by decide, by decide⟩
  exact (selectValidTokens_spec [infoA, infoB]).2.1 infoA (by decide)

/- ### C6: per-mint merge -/

theorem mergeMintRoute_mint (existing : List MintConfig) (info : TokenPoolsInfo) :
    (mergeMintRoute existing info).mint = info.tokenAddress := by
  unfold mergeMintRoute
  cases hf : findExistingMintConfig existing info.tokenAddress with
  | none => simp [freshMintConfig]
  | some c =>
    have hf2 : List.find? (fun m => m.mint == info.tokenAddress) existing = some c := by
      simpa [findExistingMintConfig] using hf
    have hp := List.find?_some hf2
    simpa using eq_of_beq (show (c.mint == info.tokenAddress) = true by simpa using hp)

/-- C6: merging one surviving candidate reuses the existing route with the
same mint when present — keeping its lookup-table accounts and processing
delay and overwriting only the pool categories the current cycle populated
(an empty newly-found category leaves the previously-known list intact) —
and otherwise creates a fresh route with empty lookup-table list and
processing delay 1000 whose category lists are exactly the newly found
ones; the adopted mint list is exactly the survivors, in order (routes for
mints not rediscovered are dropped). -/
theorem mergeMintRoute_spec (existing : List MintConfig) (survivors : List TokenPoolsInfo)
    (info : TokenPoolsInfo) (c : MintConfig) :
    (findExistingMintConfig existing info.tokenAddress = some c →
      (mergeMintRoute existing info).mint = info.tokenAddress ∧
      (mergeMintRoute existing info).lookupTableAccounts = c.lookupTableAccounts ∧
      (mergeMintRoute existing info).processDelay = c.processDelay ∧
      (info.pumpPools ≠ [] → (mergeMintRoute existing info).pumpPoolList = info.pumpPools) ∧
      (info.pumpPools = [] → (mergeMintRoute existing info).pumpPoolList = c.pumpPoolList) ∧
      (info.meteoraLists ≠ [] →
        (mergeMintRoute existing info).meteoraPoolList = info.meteoraLists) ∧
      (info.meteoraLists = [] →
        (mergeMintRoute existing info).meteoraPoolList = c.meteoraPoolList) ∧
      (info.raydiumPools ≠ [] →
        (mergeMintRoute existing info).raydiumPoolList = info.raydiumPools) ∧
      (info.raydiumPools = [] →
        (mergeMintRoute existing info).raydiumPoolList = c.raydiumPoolList) ∧
      (info.raydiumCPPools ≠ [] →
        (mergeMintRoute existing info).raydiumCPPoolList = info.raydiumCPPools) ∧
      (info.raydiumCPPools = [] →
        (mergeMintRoute existing info).raydiumCPPoolList = c.raydiumCPPoolList)) ∧
    (findExistingMintConfig existing info.tokenAddress = none →
      mergeMintRoute existing info =
        ⟨info.tokenAddress, info.pumpPools, info.raydiumPools, info.raydiumCPPools,
         info.meteoraLists, [], 1000⟩) ∧
    (mergeMintConfigList existing survivors).map MintConfig.mint =
      survivors.map TokenPoolsInfo.tokenAddress := by
  refine ⟨?_, ?_, ?_⟩
  · intro hf
    refine ⟨mergeMintRoute_mint existing info, ?_⟩
    unfold mergeMintRoute
    rw [hf]
    refine ⟨rfl, rfl, ?_, ?_, ?_, ?_, ?_, ?_, ?_, ?_⟩ <;>
      · intro h
        simp [h]
  · intro hf
    unfold mergeMintRoute
    rw [hf]
    rcases hpu : info.pumpPools with _ | _ <;>
      rcases hme : info.meteoraLists with _ | _ <;>
        rcases hra : info.raydiumPools with _ | _ <;>
          rcases hcp : info.raydiumCPPools with _ | _ <;>
            simp [freshMintConfig, hpu, hme, hra, hcp]
  · unfold mergeMintConfigList
    induction survivors with
    | nil => rfl
    | cons i rest ih => simp [List.map_cons, mergeMintRoute_mint, ih]

theorem mergeMintRoute_witness :
    findExistingMintConfig [mcOld] infoA.tokenAddress = some mcOld ∧
    (mergeMintRoute [mcOld] infoA).lookupTableAccounts = ["lut1", "lut2"] ∧
    (mergeMintRoute [mcOld] infoA).processDelay = 250 ∧
    (mergeMintRoute [mcOld] infoA).pumpPoolList = ["p1", "p2", "p3"] ∧
    (mergeMintRoute [mcOld] infoA).meteoraPoolList = ["oldm"] := by
  have h := (mergeMintRoute_spec [mcOld] [] infoA mcOld).1 (by decide)
  refine ⟨by decide, ?_, ?_, ?_, ?_⟩
  · exact h.2.1.trans (by decide)
  · exact h.2.2.1.trans (by decide)
  · exact (h.2.2.2.1 (by decide)).trans (by decide)
  · exact (h.2.2.2.2.2.2.1 (by decide)).trans (by decide)

/- ### C1: manual stop disables the auto-restart path -/

theorem step_preserves_manualStop (op : AgentOp) (s : AgentState)
    (hop : isManualStart op = false) (hs : s.manuallyStopped = true) :
    ((step op s).state).manuallyStopped = true := by
  cases op with
  | stopAgent o => by_cases h : s.isRunning <;> simp [step, h, hs]
  | stopWorker o => by_cases h : s.procRunning && !o.stopOk <;> simp [step, h]
  | startWorker o => simp [isManualStart] at hop
  | restartWorker o => simp [isManualStart] at hop
  | reconfigure o cfg =>
    by_cases h1 : o.saveOk
    · by_cases h2 : (s.procRunning && !o.exitBetween) || o.startOk <;>
        simp [step, h1, h2, hs]
    · simp [step, h1, hs]
  | tick o => simp [step, hs]
  | statusCheck => simp [step, hs]
  | procExit => simp [step, hs]

theorem runOps_preserves_manualStop (ops : List AgentOp) (s : AgentState)
    (hops : ∀ op ∈ ops, isManualStart op = false) (hs : s.manuallyStopped = true) :
    (runOps s ops).manuallyStopped = true := by
  induction ops generalizing s with
  | nil => exact hs
  | cons op rest ih =>
    simp only [runOps]
    exact ih (step op s).state (fun x hx => hops x (List.mem_cons_of_mem op hx))
      (step_preserves_manualStop op s (hops op (List.mem_cons_self op rest)) hs)

theorem tick_noop_of_blocked (o : Oracle) (s : AgentState)
    (h : s.procRunning = true ∨ s.manuallyStopped = true) :
    step (AgentOp.tick o) s = ⟨s, [], true⟩ := by
  rcases h with h | h <;> simp [step, h]

/-- C1: after `StopMEVBot` the `manuallyStopped` flag is true, and as long
as neither `StartMEVBot` nor `RestartMEVBot` runs it stays true across any
sequence of further operations, exits and ticks; every health-check tick
in that suffix is a complete no-op (it emits no start call, changes
nothing and broadcasts nothing); and in general a tick invokes the worker
start path only when the worker is not running and the flag is false. -/
theorem stopWorker_disables_auto_restart (s : AgentState) (o : Oracle) (ops : List AgentOp)
    (hops : ∀ op ∈ ops, isManualStart op = false) :
    ((runOps (step (AgentOp.stopWorker o) s).state ops).manuallyStopped = true) ∧
    (∀ i o2, ops[i]? = some (AgentOp.tick o2) →
      step (AgentOp.tick o2) (runOps (step (AgentOp.stopWorker o) s).state (ops.take i)) =
        ⟨runOps (step (AgentOp.stopWorker o) s).state (ops.take i), [], true⟩) ∧
    (∀ s2 o2, s2.procRunning = true ∨ s2.manuallyStopped = true →
      step (AgentOp.tick o2) s2 = ⟨s2, [], true⟩) := by
  have hflag : (step (AgentOp.stopWorker o) s).state.manuallyStopped = true := by
    by_cases h : s.procRunning && !o.stopOk <;> simp [step, h]
  refine ⟨runOps_preserves_manualStop ops _ hops hflag, ?_, ?_⟩
  · intro i o2 _
    have htake : ∀ op ∈ ops.take i, isManualStart op = false :=
      fun op hop => hops op (List.take_subset i ops hop)
    exact tick_noop_of_blocked o2 _
      (Or.inr (runOps_preserves_manualStop (ops.take i) _ htake hflag))
  · exact fun s2 o2 h => tick_noop_of_blocked o2 s2 h

theorem stopWorker_disables_auto_restart_witness :
    (∀ op ∈ opsW, isManualStart op = false) ∧
    (runOps (step (AgentOp.stopWorker oracleAllOk) state0).state opsW).manuallyStopped = true ∧
    step (AgentOp.tick oracleAllOk)
        (runOps (step (AgentOp.stopWorker oracleAllOk) state0).state (opsW.take 2)) =
      ⟨runOps (step (AgentOp.stopWorker oracleAllOk) state0).state (opsW.take 2), [], true⟩ := by
  have h := stopWorker_disables_auto_restart state0 oracleAllOk opsW (by decide)
  exact ⟨by decide, h.1, h.2.1 2 oracleAllOk (by decide)⟩

/- ### C2: flag-mutation ordering -/

/-- C2 counterexample: at a concrete running state with an all-success
oracle, `RestartMEVBot` emits stop-call, flag:=true, start-call,
flag:=false — so the flag has not been set to true when the stop call
happens and is cleared only after (not immediately before) the start call
— and `UpdateConfig` performs its stop and start calls without writing the
flag at all; both contradict the claimed ordering. -/
theorem flag_order_counterexample :
    (step (AgentOp.restartWorker oracleAllOk) state0).events =
      [AgentEvent.stopCall, AgentEvent.setFlag true, AgentEvent.startCall,
       AgentEvent.setFlag false, AgentEvent.broadcast BMsg.restartDone] ∧
    flagTrueAtEveryStop false (step (AgentOp.restartWorker oracleAllOk) state0).events = false ∧
    clearedImmediatelyBeforeEveryStart none
      (step (AgentOp.restartWorker oracleAllOk) state0).events = false ∧
    (step (AgentOp.reconfigure oracleAllOk cfg1) state0).events.filter isFlagMutation = [] ∧
    countEvent AgentEvent.stopCall
      (step (AgentOp.reconfigure oracleAllOk cfg1) state0).events = 1 := by
  decide

/-- C2 amended: every operation runs as one atomic critical section under
the exclusive lock, but the flag-mutation order in the code is:
`Stop` (agent shutdown) and `StopMEVBot` set the flag to true immediately
before their stop call; `StartMEVBot` clears it immediately before its
start call; `RestartMEVBot` issues the stop call first, only then sets the
flag to true, and clears it only after a successful start call (a failed
start leaves it true); `UpdateConfig` never mutates the flag. -/
theorem flag_mutation_order_amended (s : AgentState) (o : Oracle) (cfg : Config) :
    (step (AgentOp.stopAgent o) s).events =
      (if s.isRunning then [AgentEvent.setFlag true, AgentEvent.stopCall] else []) ∧
    (step (AgentOp.stopWorker o) s).events =
      [AgentEvent.setFlag true, AgentEvent.stopCall] ++
        (if s.procRunning && !o.stopOk then []
         else [AgentEvent.broadcast BMsg.manualStopDone]) ∧
    (step (AgentOp.startWorker o) s).events =
      [AgentEvent.setFlag false, AgentEvent.startCall] ++
        (if s.procRunning || o.startOk then [AgentEvent.broadcast BMsg.manualStartDone]
         else []) ∧
    (step (AgentOp.restartWorker o) s).events =
      (if s.procRunning && !o.stopOk then [AgentEvent.stopCall]
       else [AgentEvent.stopCall, AgentEvent.setFlag true, AgentEvent.startCall] ++
         (if (s.procRunning && !o.exitBetween) || o.startOk then
            [AgentEvent.setFlag false, AgentEvent.broadcast BMsg.restartDone]
          else [])) ∧
    (step (AgentOp.reconfigure o cfg) s).events =
      (if !o.saveOk then [AgentEvent.saveCall]
       else [AgentEvent.saveCall, AgentEvent.stopCall, AgentEvent.startCall] ++
         (if (s.procRunning && !o.exitBetween) || o.startOk then
            [AgentEvent.broadcast BMsg.configUpdated]
          else [])) := by
  refine ⟨?_, ?_, ?_, ?_, ?_⟩
  · by_cases h : s.isRunning <;> simp [step, h]
  · by_cases h : s.procRunning && !o.stopOk <;> simp [step, h]
  · by_cases h : s.procRunning || o.startOk <;> simp [step, h]
  · by_cases h1 : s.procRunning && !o.stopOk
    · simp [step, h1]
    · by_cases h2 : (s.procRunning && !o.exitBetween) || o.startOk <;> simp [step, h1, h2]
  · by_cases h1 : o.saveOk
    · by_cases h2 : (s.procRunning && !o.exitBetween) || o.startOk <;> simp [step, h1, h2]
    · simp [step, h1]

/- ### C4: idempotent reconfigure, one stop and one start per call -/

theorem reconfigure_saveOk_facts (s : AgentState) (cfg : Config) (o : Oracle)
    (h : o.saveOk = true) :
    (step (AgentOp.reconfigure o cfg) s).state.memConfig = cfg ∧
    (step (AgentOp.reconfigure o cfg) s).state.diskConfig = cfg ∧
    countEvent AgentEvent.stopCall (step (AgentOp.reconfigure o cfg) s).events = 1 ∧
    countEvent AgentEvent.startCall (step (AgentOp.reconfigure o cfg) s).events = 1 := by
  by_cases h2 : (s.procRunning && !o.exitBetween) || o.startOk <;>
    simp [step, h, h2, countEvent]

/-- C4: running `UpdateConfig` twice in a row with the same configuration
content (with the persist step succeeding) yields the same persisted and
in-memory configuration as a single call — all four equal the new
configuration — and each call performs exactly one worker stop call and
exactly one worker start call, regardless of whether the new configuration
equals the old one and regardless of start/stop outcomes. -/
theorem updateConfig_idempotent_and_restarts_once (s : AgentState) (cfg : Config)
    (a b c d e f : Bool) :
    ((step (AgentOp.reconfigure ⟨a, b, true, c⟩ cfg) s).state.memConfig = cfg) ∧
    ((step (AgentOp.reconfigure ⟨a, b, true, c⟩ cfg) s).state.diskConfig = cfg) ∧
    ((step (AgentOp.reconfigure ⟨d, e, true, f⟩ cfg)
        (step (AgentOp.reconfigure ⟨a, b, true, c⟩ cfg) s).state).state.memConfig = cfg) ∧
    ((step (AgentOp.reconfigure ⟨d, e, true, f⟩ cfg)
        (step (AgentOp.reconfigure ⟨a, b, true, c⟩ cfg) s).state).state.diskConfig = cfg) ∧
    countEvent AgentEvent.stopCall
      (step (AgentOp.reconfigure ⟨a, b, true, c⟩ cfg) s).events = 1 ∧
    countEvent AgentEvent.startCall
      (step (AgentOp.reconfigure ⟨a, b, true, c⟩ cfg) s).events = 1 ∧
    countEvent AgentEvent.stopCall
      (step (AgentOp.reconfigure ⟨d, e, true, f⟩ cfg)
        (step (AgentOp.reconfigure ⟨a, b, true, c⟩ cfg) s).state).events = 1 ∧
    countEvent AgentEvent.startCall
      (step (AgentOp.reconfigure ⟨d, e, true, f⟩ cfg)
        (step (AgentOp.reconfigure ⟨a, b, true, c⟩ cfg) s).state).events = 1 := by
  have h1 := reconfigure_saveOk_facts s cfg ⟨a, b, true, c⟩ rfl
  have h2 := reconfigure_saveOk_facts
    (step (AgentOp.reconfigure ⟨a, b, true, c⟩ cfg) s).state cfg ⟨d, e, true, f⟩ rfl
  exact ⟨h1.1, h1.2.1, h2.1, h2.2.1, h1.2.2.1, h1.2.2.2, h2.2.2.1, h2.2.2.2⟩

/- ### C8: failure atomicity of reconfigure -/

/-- C8: if persisting the new configuration fails, `UpdateConfig` returns
the error and the whole supervisor state — in particular the in-memory and
on-disk configurations — is unchanged; if persisting succeeds and the
subsequent worker start fails, `UpdateConfig` returns the error while the
on-disk and in-memory configurations both already hold the new value (they
agree with each other) and the worker is left not running. -/
theorem updateConfig_failure_atomicity (s : AgentState) (cfg : Config) (o : Oracle) :
    (o.saveOk = false →
      (step (AgentOp.reconfigure o cfg) s).ok = false ∧
      (step (AgentOp.reconfigure o cfg) s).state = s) ∧
    (o.saveOk = true → (s.procRunning && !o.exitBetween) = false → o.startOk = false →
      (step (AgentOp.reconfigure o cfg) s).ok = false ∧
      (step (AgentOp.reconfigure o cfg) s).state.memConfig = cfg ∧
      (step (AgentOp.reconfigure o cfg) s).state.diskConfig = cfg ∧
      (step (AgentOp.reconfigure o cfg) s).state.procRunning = false) := by
  constructor
  · intro h
    simp [step, h]
  · intro h1 h2 h3
    simp [step, h1, h2, h3]

theorem updateConfig_failure_atomicity_witness :
    ((step (AgentOp.reconfigure oracleSaveFail cfg1) state0).ok = false ∧
      (step (AgentOp.reconfigure oracleSaveFail cfg1) state0).state = state0) ∧
    ((step (AgentOp.reconfigure oracleStartFail cfg1) state0).ok = false ∧
      (step (AgentOp.reconfigure oracleStartFail cfg1) state0).state.memConfig = cfg1 ∧
      (step (AgentOp.reconfigure oracleStartFail cfg1) state0).state.diskConfig = cfg1 ∧
      (step (AgentOp.reconfigure oracleStartFail cfg1) state0).state.procRunning = false) := by
  exact ⟨(updateConfig_failure_atomicity state0 cfg1 oracleSaveFail).1 rfl,
    (updateConfig_failure_atomicity state0 cfg1 oracleStartFail).2 rfl (by decide) rfl⟩

end StonehengeFlash
